import Mathlib

/-!
Verification of the Wilma client (`wilma_mcp`): shallow embedding of the
parsing and session logic of `client.py` and `parsers.py`, together with
theorems settling the specification claims.

Strings from the Python source are modelled as `List Char`; Python `None`
and exceptions are modelled with `Option` and `Except`.
-/

namespace Wilma

instance exceptDecEq {ε α : Type} [DecidableEq ε] [DecidableEq α] :
    DecidableEq (Except ε α) := fun a b =>
  match a, b with
  | .ok x, .ok y =>
    match decEq x y with
    | .isTrue h => .isTrue (by rw [h])
    | .isFalse h => .isFalse (fun hh => h (by cases hh; rfl))
  | .error e, .error f =>
    match decEq e f with
    | .isTrue h => .isTrue (by rw [h])
    | .isFalse h => .isFalse (fun hh => h (by cases hh; rfl))
  | .ok _, .error _ => .isFalse nofun
  | .error _, .ok _ => .isFalse nofun

/-- Python whitespace class (`\s` of `re`, `str.strip`) over ASCII text:
space, tab, newline, carriage return, vertical tab, form feed. -/
def isPySpace (c : Char) : Bool :=
  c = ' ' || c = '\t' || c = '\n' || c = '\r' || c = Char.ofNat 11 || c = Char.ofNat 12

/-- ASCII lower-casing of one character. -/
def lowerC (c : Char) : Char :=
  if 65 ≤ c.toNat && c.toNat ≤ 90 then Char.ofNat (c.toNat + 32) else c

/-- Model of Python `str.lower` for the ASCII text the client handles. -/
def lowerL (l : List Char) : List Char := l.map lowerC

/-- Model of Python `str.find(pat)`: index of the leftmost occurrence of
`pat` in `l` (`none` plays the role of `-1`). -/
def findSub (l pat : List Char) : Option Nat :=
  if pat.isPrefixOf l then some 0
  else
    match l with
    | [] => none
    | _ :: t => (findSub t pat).map (· + 1)

/-- Model of Python `pat in s` (substring containment). -/
def containsSub (l pat : List Char) : Bool := (findSub l pat).isSome

/-- Model of Python `s.find(c, i)` for a single character: index of the
first occurrence of `c` at position `i` or later. -/
def findCharFrom (l : List Char) (c : Char) (i : Nat) : Option Nat :=
  match (l.drop i).findIdx? (· = c) with
  | none => none
  | some k => some (i + k)

/-- The bracket-counting loop of `_parse_schedule_from_html`
(client.py lines 208-217): scanning the characters of `l`, `'['`
increments and `']'` decrements the running count started at `depth`;
when the count reaches zero on a `']'` the loop stops and yields `i + 1`
relative to the scan start (`pos` tracks the absolute offset). -/
def findClose (l : List Char) (depth : Int) (pos : Nat) : Option Nat :=
  match l with
  | [] => none
  | c :: rest =>
    if c = '[' then findClose rest (depth + 1) (pos + 1)
    else if c = ']' then
      if depth - 1 = 0 then some (pos + 1) else findClose rest (depth - 1) (pos + 1)
    else findClose rest depth (pos + 1)

/-- Position of the embedded-events marker: `html.find("Events : [")`,
falling back to `html.find("Events: [")` (client.py lines 196-199). -/
def markerIndex (html : List Char) : Option Nat :=
  (findSub html "Events : [".data).orElse fun _ => findSub html "Events: [".data

/-- The embedded-data extractor of `_parse_schedule_from_html`
(client.py lines 196-222): locate the marker, the first `'['` at or after
it, the matching close bracket by counting, and slice the source between
them.  `none` stands for the code paths that return an empty schedule. -/
def extractEventsArray (html : List Char) : Option (List Char) :=
  match markerIndex html with
  | none => none
  | some i =>
    match findCharFrom html '[' i with
    | none => none
    | some j =>
      match findClose (html.drop j) 0 0 with
      | none => none
      | some n => some ((html.drop j).take n)

/-- Bracket weight of one character: `+1` for `'['`, `-1` for `']'`,
`0` otherwise. -/
def bDelta (c : Char) : Int :=
  if c = '[' then 1 else if c = ']' then -1 else 0

/-- Nesting depth after reading the first `n` characters of `l`:
number of `'['` minus number of `']'` among them. -/
def prefixDepth (l : List Char) (n : Nat) : Int :=
  ((l.take n).map bDelta).sum

theorem prefixDepth_zero (l : List Char) : prefixDepth l 0 = 0 := rfl

theorem prefixDepth_cons (c : Char) (l : List Char) (n : Nat) :
    prefixDepth (c :: l) (n + 1) = bDelta c + prefixDepth l n := by
  simp [prefixDepth, List.take_succ_cons]

theorem prefixDepth_nil (n : Nat) : prefixDepth [] n = 0 := by
  simp [prefixDepth]

/-- Core characterisation of the bracket-counting loop: starting from a
positive running count `d`, the loop yields exactly the least positive
`n` where the count returns to zero. -/
theorem findClose_eq_least (l : List Char) (d : Int) (p n : Nat)
    (hd : 0 < d) (hn : 0 < n)
    (hz : d + prefixDepth l n = 0)
    (hmin : ∀ m, 0 < m → m < n → d + prefixDepth l m ≠ 0) :
    findClose l d p = some (p + n) := by
  induction l generalizing d p n with
  | nil =>
    exfalso
    rw [prefixDepth_nil] at hz
    omega
  | cons c rest ih =>
    have hstep : ∀ m : Nat, prefixDepth (c :: rest) (m + 1) = bDelta c + prefixDepth rest m :=
      fun m => prefixDepth_cons c rest m
    by_cases hcl : c = '['
    · subst hcl
      have hb : bDelta '[' = 1 := by simp [bDelta]
      -- n cannot be 1, since the depth after one char is d + 1 > 0
      have hn1 : n ≠ 1 := by
        intro h1
        rw [h1] at hz
        rw [hstep 0, prefixDepth_zero, hb] at hz
        omega
      obtain ⟨n', rfl⟩ : ∃ n', n = n' + 1 := ⟨n - 1, by omega⟩
      have hn' : 0 < n' := by omega
      rw [hstep n', hb] at hz
      have hz' : (d + 1) + prefixDepth rest n' = 0 := by omega
      have hmin' : ∀ m, 0 < m → m < n' → (d + 1) + prefixDepth rest m ≠ 0 := by
        intro m hm hmn
        have := hmin (m + 1) (by omega) (by omega)
        rw [hstep m, hb] at this
        omega
      rw [show p + (n' + 1) = (p + 1) + n' by omega]
      have hrec := ih (d + 1) (p + 1) n' (by omega) hn' hz' hmin'
      simp [findClose, hrec]
    · by_cases hcr : c = ']'
      · subst hcr
        have hb : bDelta ']' = -1 := by simp [bDelta]
        by_cases hdone : d - 1 = 0
        · -- the loop returns here; minimality forces n = 1
          have hn1 : n = 1 := by
            by_contra hne
            have h2 : 1 < n := by omega
            have := hmin 1 (by omega) h2
            rw [hstep 0, prefixDepth_zero, hb] at this
            omega
          subst hn1
          simp [findClose, hdone]
        · have hn1 : n ≠ 1 := by
            intro h1
            rw [h1, hstep 0, prefixDepth_zero, hb] at hz
            omega
          obtain ⟨n', rfl⟩ : ∃ n', n = n' + 1 := ⟨n - 1, by omega⟩
          have hn' : 0 < n' := by omega
          rw [hstep n', hb] at hz
          have hd' : 0 < d - 1 := by
            -- d > 0 and d - 1 ≠ 0, so d - 1 > 0
            omega
          have hz' : (d - 1) + prefixDepth rest n' = 0 := by omega
          have hmin' : ∀ m, 0 < m → m < n' → (d - 1) + prefixDepth rest m ≠ 0 := by
            intro m hm hmn
            have := hmin (m + 1) (by omega) (by omega)
            rw [hstep m, hb] at this
            omega
          rw [show p + (n' + 1) = (p + 1) + n' by omega]
          have hrec := ih (d - 1) (p + 1) n' hd' hn' hz' hmin'
          simp [findClose, hdone, hrec]
      · have hb : bDelta c = 0 := by simp [bDelta, hcl, hcr]
        have hn1 : n ≠ 1 := by
          intro h1
          rw [h1, hstep 0, prefixDepth_zero, hb] at hz
          omega
        obtain ⟨n', rfl⟩ : ∃ n', n = n' + 1 := ⟨n - 1, by omega⟩
        have hn' : 0 < n' := by omega
        rw [hstep n', hb] at hz
        have hz' : d + prefixDepth rest n' = 0 := by omega
        have hmin' : ∀ m, 0 < m → m < n' → d + prefixDepth rest m ≠ 0 := by
          intro m hm hmn
          have := hmin (m + 1) (by omega) (by omega)
          rw [hstep m, hb] at this
          omega
        rw [show p + (n' + 1) = (p + 1) + n' by omega]
        have hrec := ih d (p + 1) n' hd hn' hz' hmin'
        simp [findClose, hcl, hcr, hrec]

/-- `findCharFrom` really returns the position of an occurrence of `c`. -/
theorem findCharFrom_get (l : List Char) (c : Char) (i j : Nat)
    (h : findCharFrom l c i = some j) :
    i ≤ j ∧ l.drop j = c :: l.drop (j + 1) := by
  unfold findCharFrom at h
  cases hf : (l.drop i).findIdx? (· = c) with
  | none => rw [hf] at h; cases h
  | some k =>
    rw [hf] at h
    injection h with h'
    subst h'
    obtain ⟨hlt, hp, -⟩ := List.findIdx?_eq_some_iff_getElem.mp hf
    have hc : (l.drop i)[k] = c := by simpa using hp
    refine ⟨Nat.le_add_right i k, ?_⟩
    have h1 : l.drop (i + k) = (l.drop i).drop k := (List.drop_drop k i l).symm
    have h2 : (l.drop i).drop k = (l.drop i)[k] :: (l.drop i).drop (k + 1) :=
      List.drop_eq_getElem_cons hlt
    rw [h1, h2, hc]
    congr 1
    rw [List.drop_drop]
    congr 1

/-- Claim C1: for every HTML document in which the embedded-events marker
(either spelling) occurs, if the bracket nesting depth scanned from the
first `[` at or after the marker first returns to zero after `n`
characters, then the embedded-data extractor selects exactly those `n`
characters — the substring from that `[` through its matching `]` —
regardless of how deeply sub-arrays are nested inside. -/
theorem c1_extractor_selects_matching_bracket_span
    (html : List Char) (i j n : Nat)
    (hm : markerIndex html = some i)
    (hj : findCharFrom html '[' i = some j)
    (hn : 0 < n)
    (hz : prefixDepth (html.drop j) n = 0)
    (hmin : ∀ m, m < n → 0 < m → prefixDepth (html.drop j) m ≠ 0) :
    extractEventsArray html = some ((html.drop j).take n) := by
  obtain ⟨-, hcons⟩ := findCharFrom_get html '[' i j hj
  have hb : bDelta '[' = 1 := by simp [bDelta]
  have h1 : prefixDepth (html.drop j) 1 = 1 := by
    rw [hcons, prefixDepth_cons, prefixDepth_zero, hb]
    omega
  have hn1 : n ≠ 1 := by
    intro h
    rw [h, h1] at hz
    exact absurd hz (by omega)
  obtain ⟨n', rfl⟩ : ∃ n', n = n' + 1 := ⟨n - 1, by omega⟩
  have hn' : 0 < n' := by omega
  have hz' : (1 : Int) + prefixDepth (html.drop (j + 1)) n' = 0 := by
    rw [hcons, prefixDepth_cons, hb] at hz
    omega
  have hmin' : ∀ m, 0 < m → m < n' → (1 : Int) + prefixDepth (html.drop (j + 1)) m ≠ 0 := by
    intro m hm0 hmn
    have := hmin (m + 1) (by omega) (by omega)
    rw [hcons, prefixDepth_cons, hb] at this
    omega
  have hclose : findClose (html.drop j) 0 0 = some (n' + 1) := by
    rw [hcons]
    have := findClose_eq_least (html.drop (j + 1)) 1 1 n' (by omega) hn' hz' hmin'
    simp [findClose, this]
    omega
  simp [extractEventsArray, hm, hj, hclose]

/-- Witness for claim C1 on a concrete page fragment with nested
sub-arrays inside the events array. -/
theorem c1_extractor_selects_matching_bracket_span_witness :
    extractEventsArray (String.data "var x; Events : [[10,[2]],3] t") =
      some (String.data "[[10,[2]],3]") := by
  have h := c1_extractor_selects_matching_bracket_span
    (String.data "var x; Events : [[10,[2]],3] t") 7 16 12
    (by decide) (by decide) (by decide) (by decide) (by decide)
  exact h.trans (by decide)

/-- JSON values as produced by Python `json.loads` on the portal's
payloads (numbers restricted to integers, which is all the portal emits
and all the client arithmetic supports). -/
inductive JValue where
  | null
  | bool (b : Bool)
  | num (n : Int)
  | str (s : String)
  | arr (elems : List JValue)
  | obj (fields : List (String × JValue))

mutual
/-- Decidable equality of JSON values. -/
def deqV : (a b : JValue) → Decidable (a = b)
  | .null, .null => .isTrue rfl
  | .bool x, .bool y =>
    match decEq x y with
    | .isTrue h => .isTrue (by rw [h])
    | .isFalse h => .isFalse (fun hh => h (by cases hh; rfl))
  | .num x, .num y =>
    match decEq x y with
    | .isTrue h => .isTrue (by rw [h])
    | .isFalse h => .isFalse (fun hh => h (by cases hh; rfl))
  | .str x, .str y =>
    match decEq x y with
    | .isTrue h => .isTrue (by rw [h])
    | .isFalse h => .isFalse (fun hh => h (by cases hh; rfl))
  | .arr xs, .arr ys =>
    match deqL xs ys with
    | .isTrue h => .isTrue (by rw [h])
    | .isFalse h => .isFalse (fun hh => h (by cases hh; rfl))
  | .obj fs, .obj gs =>
    match deqF fs gs with
    | .isTrue h => .isTrue (by rw [h])
    | .isFalse h => .isFalse (fun hh => h (by cases hh; rfl))
  | .null, .bool _ => .isFalse nofun
  | .null, .num _ => .isFalse nofun
  | .null, .str _ => .isFalse nofun
  | .null, .arr _ => .isFalse nofun
  | .null, .obj _ => .isFalse nofun
  | .bool _, .null => .isFalse nofun
  | .bool _, .num _ => .isFalse nofun
  | .bool _, .str _ => .isFalse nofun
  | .bool _, .arr _ => .isFalse nofun
  | .bool _, .obj _ => .isFalse nofun
  | .num _, .null => .isFalse nofun
  | .num _, .bool _ => .isFalse nofun
  | .num _, .str _ => .isFalse nofun
  | .num _, .arr _ => .isFalse nofun
  | .num _, .obj _ => .isFalse nofun
  | .str _, .null => .isFalse nofun
  | .str _, .bool _ => .isFalse nofun
  | .str _, .num _ => .isFalse nofun
  | .str _, .arr _ => .isFalse nofun
  | .str _, .obj _ => .isFalse nofun
  | .arr _, .null => .isFalse nofun
  | .arr _, .bool _ => .isFalse nofun
  | .arr _, .num _ => .isFalse nofun
  | .arr _, .str _ => .isFalse nofun
  | .arr _, .obj _ => .isFalse nofun
  | .obj _, .null => .isFalse nofun
  | .obj _, .bool _ => .isFalse nofun
  | .obj _, .num _ => .isFalse nofun
  | .obj _, .str _ => .isFalse nofun
  | .obj _, .arr _ => .isFalse nofun

/-- Decidable equality of JSON value lists. -/
def deqL : (xs ys : List JValue) → Decidable (xs = ys)
  | [], [] => .isTrue rfl
  | [], _ :: _ => .isFalse nofun
  | _ :: _, [] => .isFalse nofun
  | x :: xs, y :: ys =>
    match deqV x y with
    | .isFalse h1 => .isFalse (fun hh => h1 (by cases hh; rfl))
    | .isTrue h1 =>
      match deqL xs ys with
      | .isTrue h2 => .isTrue (by rw [h1, h2])
      | .isFalse h2 => .isFalse (fun hh => h2 (by cases hh; rfl))

/-- Decidable equality of JSON object field lists. -/
def deqF : (xs ys : List (String × JValue)) → Decidable (xs = ys)
  | [], [] => .isTrue rfl
  | [], _ :: _ => .isFalse nofun
  | _ :: _, [] => .isFalse nofun
  | (k, v) :: xs, (k2, v2) :: ys =>
    match decEq k k2 with
    | .isFalse h1 => .isFalse (fun hh => h1 (by cases hh; rfl))
    | .isTrue h1 =>
      match deqV v v2 with
      | .isFalse h2 => .isFalse (fun hh => h2 (by cases hh; rfl))
      | .isTrue h2 =>
        match deqF xs ys with
        | .isTrue h3 => .isTrue (by rw [h1, h2, h3])
        | .isFalse h3 => .isFalse (fun hh => h3 (by cases hh; rfl))
end

instance : DecidableEq JValue := deqV

/-- Field lookup in a decoded JSON object (`dict[key]` access): the last
binding of a key wins, matching `json.loads` duplicate-key semantics. -/
def lookupJ : List (String × JValue) → String → Option JValue
  | [], _ => none
  | (k, v) :: rest, key =>
    match lookupJ rest key with
    | some r => some r
    | none => if key = k then some v else none

/-- Python `dict.get(key, default)` on a decoded JSON object. -/
def getJD (o : List (String × JValue)) (k : String) (d : JValue) : JValue :=
  (lookupJ o k).getD d

/-- Python truthiness (`if v:`) of a decoded JSON value. -/
def pyTruthy : JValue → Bool
  | .null => false
  | .bool b => b
  | .num n => n != 0
  | .str s => s != ""
  | .arr xs => !xs.isEmpty
  | .obj fs => !fs.isEmpty

/-- The single-quote character used by Python `repr` of strings. -/
def sqChar : Char := Char.ofNat 39

mutual
/-- Python `repr()` of a decoded JSON value, as it appears inside
`str()` of a container. -/
def pyRepr : JValue → String
  | .null => "None"
  | .bool true => "True"
  | .bool false => "False"
  | .num n => toString n
  | .str s => String.mk (sqChar :: (s.data ++ [sqChar]))
  | .arr xs => "[" ++ String.intercalate ", " (pyReprList xs) ++ "]"
  | .obj fs => "\x7b" ++ String.intercalate ", " (pyReprFields fs) ++ "\x7d"

/-- `repr` of the elements of a decoded JSON array. -/
def pyReprList : List JValue → List String
  | [] => []
  | v :: vs => pyRepr v :: pyReprList vs

/-- `repr` of the key/value pairs of a decoded JSON object. -/
def pyReprFields : List (String × JValue) → List String
  | [] => []
  | (k, v) :: fs =>
      (String.mk (sqChar :: (k.data ++ [sqChar])) ++ ": " ++ pyRepr v) :: pyReprFields fs
end

/-- Python `str()` of a decoded JSON value (`str(text_dict)` on the
non-dict branch, `str(msg.get("Id", ""))`). -/
def pyStr : JValue → String
  | .null => "None"
  | .bool true => "True"
  | .bool false => "False"
  | .num n => toString n
  | .str s => s
  | .arr xs => pyRepr (.arr xs)
  | .obj fs => pyRepr (.obj fs)

/-- The `Lesson` dataclass (models.py lines 8-18); values taken from
untyped JSON stay `JValue`s. -/
structure Lesson where
  start_time : String
  end_time : String
  subject : JValue
  teacher : Option JValue := none
  room : Option JValue := none
  groups : List JValue := []
  notes : Option JValue := none
deriving DecidableEq

/-- The `DaySchedule` dataclass (models.py lines 21-26); the date is kept
in its `DD.MM.YYYY` string form. -/
structure DaySchedule where
  date : String
  lessons : List Lesson := []
deriving DecidableEq

/-- Python `f"{n:02d}"`: decimal rendering padded to width two. -/
def pad2 (n : Int) : String :=
  let s := toString n
  if s.length < 2 then "0" ++ s else s

/-- Minute-count conversion of client.py lines 237-238:
`f"{m // 60:02d}:{m % 60:02d}"`, with Python floor division and the
Python (sign-of-divisor) remainder. -/
def minutesToHHMM (m : Int) : String :=
  pad2 (m.fdiv 60) ++ ":" ++ pad2 (m.emod 60)

/-- Model of `re.sub(r"^O:\s*", "", s)` (client.py line 253): remove one
leading `O:` together with the whitespace run following it. -/
def stripOTag (s : String) : String :=
  if ['O', ':'].isPrefixOf s.data then
    String.mk ((s.data.drop 2).dropWhile isPySpace)
  else s

/-- Values usable as the `Start`/`End` minute count: JSON integers, and
JSON booleans (Python `bool` is an `int`); on anything else the
f-string's `// 60` raises `TypeError`. -/
def asPyInt : JValue → Except Unit Int
  | .num n => .ok n
  | .bool b => .ok (if b then 1 else 0)
  | _ => .error ()

/-- Per-event processing of `_parse_schedule_from_html` (client.py lines
228-262).  `ok none` models the `continue` on a date mismatch; `error ()`
models a `TypeError` escaping the event (to be caught by the surrounding
`except`). -/
def processEvent (e : List (String × JValue)) (target : String) :
    Except Unit (Option Lesson) := do
  let eventDate := getJD e "Date" (.str "")
  if eventDate ≠ JValue.str target then
    return none
  let startMins ← asPyInt (getJD e "Start" (.num 0))
  let endMins ← asPyInt (getJD e "End" (.num 0))
  let startTime := minutesToHHMM startMins
  let endTime := minutesToHHMM endMins
  let subject := match getJD e "Text" (.obj []) with
    | .obj fs => getJD fs "0" (.str "")
    | v => .str (pyStr v)
  let notes : Option JValue := match getJD e "LongText" (.obj []) with
    | .obj fs => some (getJD fs "0" (.str ""))
    | _ => none
  let teacherRaw : Option JValue := match getJD e "Opet" (.obj []) with
    | .obj fs => some (getJD fs "0" (.str ""))
    | _ => none
  let teacher ← match teacherRaw with
    | some v =>
      if pyTruthy v then
        match v with
        | .str s => pure (some (JValue.str (stripOTag s)))
        | _ => Except.error ()
      else pure (some v)
    | none => pure (none : Option JValue)
  return some { start_time := startTime, end_time := endTime,
                subject := subject, teacher := teacher, notes := notes }

/-- Outcome of visiting one element of the decoded events array: a
non-dict element raises `AttributeError` on `.get`, which the
surrounding `except (json.JSONDecodeError, KeyError, TypeError)` does
not catch. -/
inductive EventStep where
  | raised
  | caught
  | skip
  | got (l : Lesson)

/-- One iteration of the event loop. -/
def stepOfEvent (v : JValue) (target : String) : EventStep :=
  match v with
  | .obj fs =>
    match processEvent fs target with
    | .error () => .caught
    | .ok none => .skip
    | .ok (some l) => .got l
  | _ => .raised

/-- The event loop with its partial-progress semantics: a caught
exception keeps the lessons accumulated so far and stops; an uncaught
one aborts the whole call. -/
def runEvents : List JValue → String → List Lesson → Except Unit (List Lesson)
  | [], _, acc => .ok acc
  | v :: rest, target, acc =>
    match stepOfEvent v target with
    | .raised => .error ()
    | .caught => .ok acc
    | .skip => runEvents rest target acc
    | .got l => runEvents rest target (acc ++ [l])

/-- Lexicographic comparison of character lists by code point, the order
Python uses to compare strings. -/
def lexLEb : List Char → List Char → Bool
  | [], _ => true
  | _ :: _, [] => false
  | a :: as, b :: bs =>
    if a.toNat < b.toNat then true
    else if b.toNat < a.toNat then false
    else lexLEb as bs

theorem lexLEb_total (a b : List Char) : lexLEb a b = true ∨ lexLEb b a = true := by
  induction a generalizing b with
  | nil => exact .inl rfl
  | cons x xs ih =>
    cases b with
    | nil => exact .inr rfl
    | cons y ys =>
      by_cases h1 : x.toNat < y.toNat
      · left
        simp [lexLEb, h1]
      · by_cases h2 : y.toNat < x.toNat
        · right
          simp [lexLEb, h2]
        · rcases ih ys with h | h
          · left
            simp [lexLEb, h1, h2, h]
          · right
            simp [lexLEb, h1, h2, h]

theorem lexLEb_trans (a b c : List Char) (h1 : lexLEb a b = true)
    (h2 : lexLEb b c = true) : lexLEb a c = true := by
  induction a generalizing b c with
  | nil => rfl
  | cons x xs ih =>
    cases b with
    | nil => simp [lexLEb] at h1
    | cons y ys =>
      cases c with
      | nil => simp [lexLEb] at h2
      | cons z zs =>
        simp only [lexLEb] at h1 h2 ⊢
        by_cases pxy : x.toNat < y.toNat
        · by_cases pyz : y.toNat < z.toNat
          · have hlt : x.toNat < z.toNat := by omega
            simp [hlt]
          · by_cases pzy : z.toNat < y.toNat
            · rw [if_neg pyz, if_pos pzy] at h2
              simp at h2
            · have hlt : x.toNat < z.toNat := by omega
              simp [hlt]
        · by_cases pyx : y.toNat < x.toNat
          · rw [if_neg pxy, if_pos pyx] at h1
            simp at h1
          · by_cases pyz : y.toNat < z.toNat
            · have hlt : x.toNat < z.toNat := by omega
              simp [hlt]
            · by_cases pzy : z.toNat < y.toNat
              · rw [if_neg pyz, if_pos pzy] at h2
                simp at h2
              · rw [if_neg pxy, if_neg pyx] at h1
                rw [if_neg pyz, if_neg pzy] at h2
                have hnz : ¬x.toNat < z.toNat := by omega
                have hzn : ¬z.toNat < x.toNat := by omega
                rw [if_neg hnz, if_neg hzn]
                exact ih ys zs h1 h2

/-- Sort comparison of client.py line 268 (`key=lambda x: x.start_time`):
Python compares the start-time strings lexicographically by code point. -/
def lessonLE (a b : Lesson) : Prop := lexLEb a.start_time.data b.start_time.data = true

instance : DecidableRel lessonLE := fun a b =>
  inferInstanceAs (Decidable (lexLEb a.start_time.data b.start_time.data = true))

instance : IsTotal Lesson lessonLE :=
  ⟨fun a b => lexLEb_total a.start_time.data b.start_time.data⟩

instance : IsTrans Lesson lessonLE :=
  ⟨fun a b c h1 h2 => lexLEb_trans a.start_time.data b.start_time.data c.start_time.data h1 h2⟩

/-- The stable sort applied to the collected lessons (`list.sort` is a
stable sort, and the output of a stable sort by a key is unique). -/
def sortLessons (ls : List Lesson) : List Lesson := List.insertionSort lessonLE ls

/-- The lesson-collection phase of `_parse_schedule_from_html`
(client.py lines 196-265): extraction failure and `JSONDecodeError` are
caught and leave no lessons; a decoded array runs the event loop;
iterating a non-empty decoded dict or string hits `AttributeError`
(uncaught, `error ()`); iterating a number/bool/null hits `TypeError`
(caught, no lessons). -/
def collectLessons (extracted : Option (List Char)) (target : String)
    (loads : List Char → Option JValue) : Except Unit (List Lesson) :=
  match extracted with
  | none => .ok []
  | some s =>
    match loads s with
    | none => .ok []
    | some (.arr events) => runEvents events target []
    | some (.obj []) => .ok []
    | some (.obj (_ :: _)) => .error ()
    | some (.str s') => if s' = "" then .ok [] else .error ()
    | some _ => .ok []

/-- Full `_parse_schedule_from_html` (client.py lines 190-270), with
`json.loads` abstracted as `loads` (`none` = `JSONDecodeError`).
`error ()` models an uncaught Python exception escaping the method;
every `ok` is a returned `DaySchedule` whose lessons are the collected
lessons sorted by start time. -/
def parseScheduleFromHtml (html : List Char) (target : String)
    (loads : List Char → Option JValue) : Except Unit DaySchedule :=
  match collectLessons (extractEventsArray html) target loads with
  | .error () => .error ()
  | .ok ls => .ok { date := target, lessons := sortLessons ls }

@[simp] theorem exceptOkBind (a : α) (f : α → Except ε β) :
    (Except.ok a >>= f) = f a := rfl

theorem processEvent_date (fs : List (String × JValue)) (target : String) (l : Lesson)
    (h : processEvent fs target = .ok (some l)) :
    getJD fs "Date" (.str "") = JValue.str target := by
  by_contra hne
  unfold processEvent at h
  rw [if_pos hne] at h
  simp [pure, Except.pure] at h

theorem stepOfEvent_got (v : JValue) (target : String) (l : Lesson)
    (h : stepOfEvent v target = .got l) :
    ∃ fs, v = JValue.obj fs ∧ processEvent fs target = .ok (some l) := by
  cases v with
  | obj fs =>
    refine ⟨fs, rfl, ?_⟩
    cases hp : processEvent fs target with
    | error e =>
      cases e
      simp [stepOfEvent, hp] at h
    | ok o =>
      cases o with
      | none => simp [stepOfEvent, hp] at h
      | some l2 =>
        simp [stepOfEvent, hp] at h
        rw [h]
  | null => simp [stepOfEvent] at h
  | bool b => simp [stepOfEvent] at h
  | num n => simp [stepOfEvent] at h
  | str s => simp [stepOfEvent] at h
  | arr xs => simp [stepOfEvent] at h

theorem runEvents_mem (events : List JValue) (target : String) (acc res : List Lesson)
    (h : runEvents events target acc = .ok res) (l : Lesson) (hl : l ∈ res) :
    l ∈ acc ∨ ∃ fs, JValue.obj fs ∈ events ∧ processEvent fs target = .ok (some l) := by
  induction events generalizing acc with
  | nil =>
    rw [runEvents] at h
    injection h with h'
    subst h'
    exact .inl hl
  | cons v rest ih =>
    rw [runEvents] at h
    cases hs : stepOfEvent v target with
    | raised => rw [hs] at h; cases h
    | caught =>
      rw [hs] at h
      injection h with h'
      subst h'
      exact .inl hl
    | skip =>
      rw [hs] at h
      rcases ih acc h with h1 | ⟨fs, hm, hp⟩
      · exact .inl h1
      · exact .inr ⟨fs, List.mem_cons_of_mem _ hm, hp⟩
    | got l2 =>
      rw [hs] at h
      rcases ih (acc ++ [l2]) h with h1 | ⟨fs, hm, hp⟩
      · rcases List.mem_append.mp h1 with h2 | h2
        · exact .inl h2
        · have hl2 : l = l2 := by simpa using h2
          subst hl2
          obtain ⟨fs, hv, hp⟩ := stepOfEvent_got v target l hs
          exact .inr ⟨fs, by rw [hv]; exact List.mem_cons_self _ _, hp⟩
      · exact .inr ⟨fs, List.mem_cons_of_mem _ hm, hp⟩

theorem sortLessons_pairwise (ls : List Lesson) :
    (sortLessons ls).Pairwise lessonLE :=
  List.sorted_insertionSort lessonLE ls

theorem collectLessons_mem (ext : Option (List Char)) (target : String)
    (loads : List Char → Option JValue) (ls : List Lesson)
    (h : collectLessons ext target loads = .ok ls) (l : Lesson) (hl : l ∈ ls) :
    ∃ s events fs, ext = some s ∧ loads s = some (.arr events) ∧
      JValue.obj fs ∈ events ∧ processEvent fs target = .ok (some l) := by
  cases ext with
  | none =>
    simp only [collectLessons] at h
    injection h with h'
    subst h'
    cases hl
  | some s =>
    simp only [collectLessons] at h
    rcases hld : loads s with - | jv
    · rw [hld] at h
      injection h with h'
      subst h'
      cases hl
    · rw [hld] at h
      cases jv with
      | arr events =>
        rcases runEvents_mem events target [] ls h l hl with h0 | ⟨fs, hm, hp⟩
        · cases h0
        · exact ⟨s, events, fs, rfl, hld, hm, hp⟩
      | null =>
        injection h with h'
        subst h'
        cases hl
      | bool b =>
        injection h with h'
        subst h'
        cases hl
      | num n =>
        injection h with h'
        subst h'
        cases hl
      | str s' =>
        have h2 : (if s' = "" then Except.ok [] else Except.error ()) = Except.ok ls := h
        by_cases he : s' = ""
        · rw [if_pos he] at h2
          injection h2 with h'
          subst h'
          cases hl
        · rw [if_neg he] at h2
          cases h2
      | obj fs =>
        cases fs with
        | nil =>
          injection h with h'
          subst h'
          cases hl
        | cons f rest => cases h

/-- Claim C4: for every day-schedule parse that returns normally, every
lesson of the returned `DaySchedule` comes from a decoded event record
whose `Date` field equals the requested date, and the returned lessons
are pairwise non-decreasing in their start-time strings. -/
theorem c4_schedule_date_filter_and_sorted (html : List Char) (target : String)
    (loads : List Char → Option JValue) (sched : DaySchedule)
    (h : parseScheduleFromHtml html target loads = .ok sched) :
    (∀ l ∈ sched.lessons, ∃ s events fs,
        extractEventsArray html = some s ∧ loads s = some (.arr events) ∧
        JValue.obj fs ∈ events ∧
        getJD fs "Date" (.str "") = JValue.str target ∧
        processEvent fs target = .ok (some l)) ∧
    sched.lessons.Pairwise lessonLE := by
  unfold parseScheduleFromHtml at h
  cases hc : collectLessons (extractEventsArray html) target loads with
  | error e =>
    cases e
    rw [hc] at h
    cases h
  | ok ls =>
    rw [hc] at h
    injection h with h'
    subst h'
    constructor
    · intro l hml
      have hmem : l ∈ ls := (List.perm_insertionSort lessonLE ls).mem_iff.mp hml
      obtain ⟨s, events, fs, hx, hld, hm, hp⟩ :=
        collectLessons_mem (extractEventsArray html) target loads ls hc l hmem
      exact ⟨s, events, fs, hx, hld, hm, processEvent_date fs target l hp, hp⟩
    · exact sortLessons_pairwise ls

/-- Concrete page for the C4 witness. -/
def c4Html : List Char := String.data "Events: [x]"

/-- Concrete decoded payload for the C4 witness: one event on the
requested day, one on the following day. -/
def c4Loads : List Char → Option JValue := fun _ =>
  some (.arr
    [.obj [("Date", .str "08.02.2026"), ("Start", .num 600), ("End", .num 645),
           ("Text", .obj [("0", .str "Math")])],
     .obj [("Date", .str "09.02.2026"), ("Start", .num 480)]])

/-- The schedule the C4 witness run produces. -/
def c4Sched : DaySchedule :=
  { date := "08.02.2026",
    lessons := [{ start_time := "10:00", end_time := "10:45",
                  subject := JValue.str "Math",
                  teacher := some (JValue.str ""),
                  notes := some (JValue.str "") }] }

/-- Witness for claim C4 on a concrete mixed-week payload. -/
theorem c4_schedule_date_filter_and_sorted_witness :
    (∀ l ∈ c4Sched.lessons, ∃ s events fs,
        extractEventsArray c4Html = some s ∧ c4Loads s = some (.arr events) ∧
        JValue.obj fs ∈ events ∧
        getJD fs "Date" (.str "") = JValue.str "08.02.2026" ∧
        processEvent fs "08.02.2026" = .ok (some l)) ∧
    c4Sched.lessons.Pairwise lessonLE :=
  c4_schedule_date_filter_and_sorted c4Html "08.02.2026" c4Loads c4Sched (by rfl)

/-- Claim C5: for an event record carrying the requested date, integer
`Start`/`End` minute counts, and `"0"`-indexed `Text`/`LongText`/`Opet`
dictionaries with a non-empty teacher entry, the produced lesson maps
`Start`/`End` through the zero-padded `HH:MM` conversion, takes the
subject from `Text["0"]`, the notes from `LongText["0"]`, and the
teacher from `Opet["0"]` with a leading `O:` prefix (plus following
whitespace) stripped. -/
theorem c5_event_field_mapping (target subj note t : String) (s e : Int)
    (ht : t ≠ "") :
    processEvent
      [("Date", JValue.str target), ("Start", JValue.num s), ("End", JValue.num e),
       ("Text", JValue.obj [("0", JValue.str subj)]),
       ("LongText", JValue.obj [("0", JValue.str note)]),
       ("Opet", JValue.obj [("0", JValue.str t)])] target
      = Except.ok (some { start_time := minutesToHHMM s, end_time := minutesToHHMM e,
                          subject := JValue.str subj,
                          teacher := some (JValue.str (stripOTag t)),
                          notes := some (JValue.str note) }) := by
  simp [processEvent, getJD, lookupJ, asPyInt, pyTruthy, ht,
        Except.bind, Except.pure]

/-- Witness for claim C5 on the specification's scenario record:
`Start` 510 and `End` 555 become `08:30` and `09:15`, and teacher
`"O: J. Doe"` becomes `"J. Doe"`. -/
theorem c5_event_field_mapping_witness :
    ("O: J. Doe" ≠ "") ∧
    processEvent
      [("Date", JValue.str "08.02.2026"), ("Start", JValue.num 510),
       ("End", JValue.num 555),
       ("Text", JValue.obj [("0", JValue.str "Math")]),
       ("LongText", JValue.obj [("0", JValue.str "note")]),
       ("Opet", JValue.obj [("0", JValue.str "O: J. Doe")])] "08.02.2026"
      = Except.ok (some { start_time := "08:30", end_time := "09:15",
                          subject := JValue.str "Math",
                          teacher := some (JValue.str "J. Doe"),
                          notes := some (JValue.str "note") }) :=
  ⟨by decide,
   (c5_event_field_mapping "08.02.2026" "Math" "note" "O: J. Doe" 510 555
      (by decide)).trans (by rfl)⟩

/-- Calendar date-time as constructed by Python `datetime`. -/
structure PyDateTime where
  year : Nat
  month : Nat
  day : Nat
  hour : Nat
  minute : Nat
  second : Nat
deriving DecidableEq

/-- Gregorian leap-year rule, as used by Python's calendar checks. -/
def isLeapYear (y : Nat) : Bool :=
  (y % 4 = 0 && y % 100 != 0) || y % 400 = 0

/-- Length of a month in a given year. -/
def daysInMonth (y m : Nat) : Nat :=
  if m = 2 then (if isLeapYear y then 29 else 28)
  else if m = 4 || m = 6 || m = 9 || m = 11 then 30
  else 31

/-- Validation performed by the `datetime` constructor: out-of-range
components raise `ValueError` (`none`). -/
def mkDatetime (y mo d h mi s : Nat) : Option PyDateTime :=
  if 1 ≤ y && y ≤ 9999 && 1 ≤ mo && mo ≤ 12 && 1 ≤ d && d ≤ daysInMonth y mo
      && h ≤ 23 && mi ≤ 59 && s ≤ 59 then
    some ⟨y, mo, d, h, mi, s⟩
  else none

/-- ASCII digit test, kept kernel-computable. -/
def isDig (c : Char) : Bool := 48 ≤ c.toNat && c.toNat ≤ 57

/-- Value of an ASCII digit. -/
def dv (c : Char) : Nat := c.toNat - 48

/-- Directives of the `strptime` formats the client uses. -/
inductive FTok where
  | lit (c : Char)
  | ws
  | fd
  | fm
  | fY
  | fH
  | fMin
  | fS
deriving DecidableEq

/-- Candidate matches of one `strptime` directive at the head of the
input, in the order the CPython `_strptime` regex alternation tries them
(`%d`: `3[01]|[12]\d|0[1-9]|[1-9]`; `%m`: `1[0-2]|0[1-9]|[1-9]`;
`%Y`: four digits; `%H`: `2[0-3]|[0-1]\d|\d`; `%M`: `[0-5]\d|\d`;
`%S`: `6[0-1]|[0-5]\d|\d`; whitespace in the format becomes `\s+`). -/
def tokAlts : FTok → List Char → List (Nat × List Char)
  | .lit c, l =>
    match l with
    | c' :: rest => if c' = c then [(0, rest)] else []
    | [] => []
  | .ws, l =>
    match l with
    | c :: _ => if isPySpace c then [(0, l.dropWhile isPySpace)] else []
    | [] => []
  | .fd, l =>
    match l with
    | c1 :: c2 :: rest =>
      (if (c1 = '3' && (c2 = '0' || c2 = '1'))
          || ((c1 = '1' || c1 = '2') && isDig c2)
          || (c1 = '0' && isDig c2 && c2 ≠ '0') then
        [(10 * dv c1 + dv c2, rest)] else [])
      ++ (if isDig c1 && c1 ≠ '0' then [(dv c1, c2 :: rest)] else [])
    | [c1] => if isDig c1 && c1 ≠ '0' then [(dv c1, [])] else []
    | [] => []
  | .fm, l =>
    match l with
    | c1 :: c2 :: rest =>
      (if (c1 = '1' && (c2 = '0' || c2 = '1' || c2 = '2'))
          || (c1 = '0' && isDig c2 && c2 ≠ '0') then
        [(10 * dv c1 + dv c2, rest)] else [])
      ++ (if isDig c1 && c1 ≠ '0' then [(dv c1, c2 :: rest)] else [])
    | [c1] => if isDig c1 && c1 ≠ '0' then [(dv c1, [])] else []
    | [] => []
  | .fY, l =>
    match l with
    | c1 :: c2 :: c3 :: c4 :: rest =>
      if isDig c1 && isDig c2 && isDig c3 && isDig c4 then
        [(1000 * dv c1 + 100 * dv c2 + 10 * dv c3 + dv c4, rest)]
      else []
    | _ => []
  | .fH, l =>
    match l with
    | c1 :: c2 :: rest =>
      (if (c1 = '2' && (c2 = '0' || c2 = '1' || c2 = '2' || c2 = '3'))
          || ((c1 = '0' || c1 = '1') && isDig c2) then
        [(10 * dv c1 + dv c2, rest)] else [])
      ++ (if isDig c1 then [(dv c1, c2 :: rest)] else [])
    | [c1] => if isDig c1 then [(dv c1, [])] else []
    | [] => []
  | .fMin, l =>
    match l with
    | c1 :: c2 :: rest =>
      (if dv c1 ≤ 5 && isDig c1 && isDig c2 then [(10 * dv c1 + dv c2, rest)] else [])
      ++ (if isDig c1 then [(dv c1, c2 :: rest)] else [])
    | [c1] => if isDig c1 then [(dv c1, [])] else []
    | [] => []
  | .fS, l =>
    match l with
    | c1 :: c2 :: rest =>
      (if (c1 = '6' && (c2 = '0' || c2 = '1'))
          || (dv c1 ≤ 5 && isDig c1 && isDig c2) then
        [(10 * dv c1 + dv c2, rest)] else [])
      ++ (if isDig c1 then [(dv c1, c2 :: rest)] else [])
    | [c1] => if isDig c1 then [(dv c1, [])] else []
    | [] => []

/-- Backtracking matcher for a directive sequence against the whole
input (the compiled `strptime` regex must cover the entire string).
Returns the matched directive values in order. -/
def matchToks : List FTok → List Char → Option (List (FTok × Nat))
  | [], [] => some []
  | [], _ :: _ => none
  | t :: ts, l =>
    (tokAlts t l).findSome? fun vr =>
      (matchToks ts vr.2).map fun as => (t, vr.1) :: as

/-- Value of a matched directive, with the `_strptime` defaults
(year 1900, month 1, day 1, midnight). -/
def fieldD (as : List (FTok × Nat)) (t : FTok) (d : Nat) : Nat :=
  match as.find? (fun p => decide (p.1 = t)) with
  | some p => p.2
  | none => d

/-- Model of `datetime.strptime(s, fmt)`: `none` is the `ValueError`
the callers catch. -/
def strptime (fmt : List FTok) (s : List Char) : Option PyDateTime :=
  match matchToks fmt s with
  | none => none
  | some as =>
    mkDatetime (fieldD as .fY 1900) (fieldD as .fm 1) (fieldD as .fd 1)
      (fieldD as .fH 0) (fieldD as .fMin 0) (fieldD as .fS 0)

/-- Format `"%d.%m.%Y %H:%M"`. -/
def fmtDMYColon : List FTok := [.fd, .lit '.', .fm, .lit '.', .fY, .ws, .fH, .lit ':', .fMin]

/-- Format `"%d.%m.%Y %H.%M"`. -/
def fmtDMYDot : List FTok := [.fd, .lit '.', .fm, .lit '.', .fY, .ws, .fH, .lit '.', .fMin]

/-- Format `"%d.%m.%Y"`. -/
def fmtDMY : List FTok := [.fd, .lit '.', .fm, .lit '.', .fY]

/-- Format `"%d.%m. %H:%M"`. -/
def fmtDMColon : List FTok := [.fd, .lit '.', .fm, .lit '.', .ws, .fH, .lit ':', .fMin]

/-- Format `"%d.%m."`. -/
def fmtDM : List FTok := [.fd, .lit '.', .fm, .lit '.']

/-- Format `"%Y-%m-%d %H:%M:%S"`. -/
def fmtISOFull : List FTok :=
  [.fY, .lit '-', .fm, .lit '-', .fd, .ws, .fH, .lit ':', .fMin, .lit ':', .fS]

/-- Format `"%Y-%m-%d"`. -/
def fmtISODate : List FTok := [.fY, .lit '-', .fm, .lit '-', .fd]

/-- Format `"%Y-%m-%d %H:%M"` used by `_parse_messages_json`. -/
def fmtISOMin : List FTok := [.fY, .lit '-', .fm, .lit '-', .fd, .ws, .fH, .lit ':', .fMin]

/-- The ordered format list of `_parse_finnish_timestamp`
(parsers.py lines 342-350). -/
def finnishFormats : List (List FTok) :=
  [fmtDMYColon, fmtDMYDot, fmtDMY, fmtDMColon, fmtDM, fmtISOFull, fmtISODate]

/-- The format loop of `_parse_finnish_timestamp` (parsers.py lines
355-363): first matching format wins; a year of 1900 (year absent from
the format) is replaced by the current year. -/
def tryFormats (fmts : List (List FTok)) (s : List Char) (now : PyDateTime) :
    Option PyDateTime :=
  match fmts with
  | [] => none
  | f :: rest =>
    match strptime f s with
    | some dt => some (if dt.year = 1900 then { dt with year := now.year } else dt)
    | none => tryFormats rest s now

/-- Generic `re.search`: try the pattern matcher at every start
position, leftmost match wins. -/
def searchFrom (f : List Char → Option α) : List Char → Option α
  | [] => f []
  | c :: rest =>
    match f (c :: rest) with
    | some r => some r
    | none => searchFrom f rest

/-- `\d{1,2}` with regex backtracking: the greedy two-digit match first,
then the one-digit match. -/
def take2or1Digits (l : List Char) : List (Nat × List Char) :=
  match l with
  | c1 :: c2 :: rest =>
    (if isDig c1 && isDig c2 then [(10 * dv c1 + dv c2, rest)] else [])
    ++ (if isDig c1 then [(dv c1, c2 :: rest)] else [])
  | [c1] => if isDig c1 then [(dv c1, [])] else []
  | [] => []

/-- `(\d{2,4})?` at the head of the input: greedy, longest first. -/
def yearDigits (l : List Char) : Option Nat :=
  match l with
  | c1 :: c2 :: c3 :: c4 :: _ =>
    if isDig c1 && isDig c2 && isDig c3 && isDig c4 then
      some (1000 * dv c1 + 100 * dv c2 + 10 * dv c3 + dv c4)
    else if isDig c1 && isDig c2 && isDig c3 then
      some (100 * dv c1 + 10 * dv c2 + dv c3)
    else if isDig c1 && isDig c2 then some (10 * dv c1 + dv c2)
    else none
  | [c1, c2, c3] =>
    if isDig c1 && isDig c2 && isDig c3 then
      some (100 * dv c1 + 10 * dv c2 + dv c3)
    else if isDig c1 && isDig c2 then some (10 * dv c1 + dv c2)
    else none
  | [c1, c2] => if isDig c1 && isDig c2 then some (10 * dv c1 + dv c2) else none
  | _ => none

/-- Match of `(\d{1,2})\.(\d{1,2})\.?(\d{2,4})?` at the head of the
input (the component-extraction regex of parsers.py line 366). -/
def matchDateTriple (l : List Char) : Option (Nat × Nat × Option Nat) :=
  (take2or1Digits l).findSome? fun d1 =>
    match d1.2 with
    | '.' :: r2 =>
      (take2or1Digits r2).findSome? fun m1 =>
        let r4 := match m1.2 with
          | '.' :: r => r
          | r => r
        some (d1.1, m1.1, yearDigits r4)
    | _ => none

/-- Match of `(\d{1,2})[.:](\d{2})` at the head of the input
(the time-extraction regex of parsers.py line 367). -/
def matchTimePair (l : List Char) : Option (Nat × Nat) :=
  (take2or1Digits l).findSome? fun h1 =>
    match h1.2 with
    | c :: d1 :: d2 :: _ =>
      if (c = '.' || c = ':') && isDig d1 && isDig d2 then
        some (h1.1, 10 * dv d1 + dv d2)
      else none
    | _ => none

/-- Python `str.strip()`: whitespace removed from both ends. -/
def pyStrip (l : List Char) : List Char :=
  ((l.dropWhile isPySpace).reverse.dropWhile isPySpace).reverse

/-- Model of `_parse_finnish_timestamp` (parsers.py lines 329-381).
`error ()` is an uncaught `ValueError` from the final `datetime(...)`
construction; `now` stands for `datetime.now()`. -/
def parseFinnishTimestamp (ts : String) (now : PyDateTime) : Except Unit PyDateTime :=
  if ts.data = [] then .ok now
  else
    let s := pyStrip ts.data
    match tryFormats finnishFormats s now with
    | some dt => .ok dt
    | none =>
      match searchFrom matchDateTriple s with
      | none => .ok now
      | some (d, mo, yOpt) =>
        let y0 := match yOpt with
          | some y => y
          | none => now.year
        let y := if y0 < 100 then y0 + 2000 else y0
        let hm := match searchFrom matchTimePair s with
          | some p => p
          | none => (0, 0)
        match mkDatetime y mo d hm.1 hm.2 0 with
        | some dt => .ok dt
        | none => .error ()

/-- The error surface of the client: `WilmaAuthError`, `WilmaAPIError`,
or a raw Python exception escaping uncaught. -/
inductive WErr where
  | auth (msg : String)
  | api (msg : String)
  | pyexn
deriving DecidableEq

/-- The `MessageSummary` dataclass (models.py lines 39-48); untyped JSON
fields stay `JValue`s. -/
structure MessageSummary where
  id : String
  subject : JValue
  sender : JValue
  timestamp : PyDateTime
  is_read : Bool
  folder : JValue
deriving DecidableEq

/-- Python `v != 0` on a decoded JSON value
(`msg.get("Status", 0) != 0`): `0` and `False` both equal `0`. -/
def pyNeZero (v : JValue) : Bool :=
  match v with
  | .num 0 => false
  | .bool false => false
  | _ => true

/-- Per-item conversion of `_parse_messages_json` (client.py lines
411-427): a non-string `TimeStamp` makes `strptime` raise `TypeError`
(uncaught, `error ()`); an unparsable string timestamp falls back to
`datetime.now()` (`now`). -/
def parseItem (msg : List (String × JValue)) (folder : String) (now : PyDateTime) :
    Except Unit MessageSummary :=
  match getJD msg "TimeStamp" (.str "") with
  | .str ts =>
    Except.ok
      { id := pyStr (getJD msg "Id" (.str "")),
        subject := getJD msg "Subject" (.str ""),
        sender := getJD msg "Sender" (.str ""),
        timestamp := match strptime fmtISOMin ts.data with
          | some dt => dt
          | none => now,
        is_read := pyNeZero (getJD msg "Status" (.num 0)),
        folder := getJD msg "Folder" (.str folder) }
  | _ => .error ()

/-- The item loop of `_parse_messages_json`: each item must be a dict
(`.get` on anything else raises `AttributeError`, uncaught), and the
whole call aborts on the first exception. -/
def parseItems : List JValue → String → PyDateTime → Except Unit (List MessageSummary)
  | [], _, _ => .ok []
  | v :: rest, folder, now =>
    match v with
    | .obj fs =>
      match parseItem fs folder now with
      | .error () => .error ()
      | .ok m =>
        match parseItems rest folder now with
        | .error () => .error ()
        | .ok ms => .ok (m :: ms)
    | _ => .error ()

/-- `_parse_messages_json` (client.py lines 404-429): `Messages` defaults
to an empty list; slicing a non-list raises (`TypeError` on numbers and
dicts, and slicing a non-empty string leads to `AttributeError` in the
loop), all uncaught. -/
def parseMessagesJson (data : JValue) (folder : String) (limit : Nat)
    (now : PyDateTime) : Except Unit (List MessageSummary) :=
  match data with
  | .obj dfs =>
    match getJD dfs "Messages" (.arr []) with
    | .arr xs => parseItems (xs.take limit) folder now
    | .str s => if s.data = [] then .ok [] else .error ()
    | _ => .error ()
  | _ => .error ()

/-- The request path used by `get_messages` (client.py line 394): the
folder argument plays no part in it. -/
def messagesListPath (_folder : String) : String := "/messages/list/index_json"

/-- Body of `get_messages` (client.py lines 396-402): an unparsable JSON
payload (`response.json()` raising `ValueError`, modelled as `none`)
becomes a `WilmaAPIError`; exceptions from `_parse_messages_json`
propagate raw (`pyexn`). -/
def getMessagesModel (payload : Option JValue) (folder : String) (limit : Nat)
    (now : PyDateTime) : Except WErr (List MessageSummary) :=
  match payload with
  | none => .error (.api "Failed to parse messages response")
  | some data =>
    match parseMessagesJson data folder limit now with
    | .ok ms => .ok ms
    | .error () => .error .pyexn

/-- Literal-prefix matcher used to model regex literals. -/
def litPrefix (pat l : List Char) : Option (List Char) :=
  if pat.isPrefixOf l then some (l.drop pat.length) else none

/-- `\s+` at the head of the input (greedy; in the formkey patterns the
following literal is never whitespace). -/
def ws1 (l : List Char) : Option (List Char) :=
  match l with
  | c :: _ => if isPySpace c then some (l.dropWhile isPySpace) else none
  | [] => none

/-- `([^"]*)"`: the capture group up to a mandatory closing quote. -/
def quotedGroup (l : List Char) : Option (List Char × List Char) :=
  let g := l.takeWhile (· ≠ '"')
  match l.drop g.length with
  | '"' :: r => some (g, r)
  | _ => none

/-- Match of `name="formkey"\s+value="([^"]*)"` at the head of the
input (client.py lines 723-725). -/
def matchFormkeyA (l : List Char) : Option (List Char) := do
  let r1 ← litPrefix (String.data "name=\"formkey\"") l
  let r2 ← ws1 r1
  let r3 ← litPrefix (String.data "value=\"") r2
  let (g, _) ← quotedGroup r3
  pure g

/-- Match of `value="([^"]*)"\s+name="formkey"` at the head of the
input (client.py lines 727-729). -/
def matchFormkeyB (l : List Char) : Option (List Char) := do
  let r1 ← litPrefix (String.data "value=\"") l
  let (g, r2) ← quotedGroup r1
  let r3 ← ws1 r2
  let _ ← litPrefix (String.data "name=\"formkey\"") r3
  pure g

/-- The formkey extraction cascade of `reply_to_message`: the first
attribute ordering, then the reversed one. -/
def extractFormkey (html : List Char) : Option (List Char) :=
  match searchFrom matchFormkeyA html with
  | some g => some g
  | none => searchFrom matchFormkeyB html

/-- The formkey check of `reply_to_message` (client.py lines 730-734):
a missing formkey raises `WilmaAPIError`. -/
def replyFormkeyStep (html : List Char) : Except WErr (List Char) :=
  match extractFormkey html with
  | none => .error (.api "Could not extract formkey from reply compose form")
  | some k => .ok k

/-- Counterexample to claim C3 as stated: listing messages on an
unparsable payload raises `WilmaAPIError`, and a reply compose form
missing its formkey raises `WilmaAPIError` — neither degrades to an
empty result. -/
theorem c3_no_raise_counterexample :
    getMessagesModel none "inbox" 20 ⟨2026, 2, 8, 0, 0, 0⟩ =
      .error (.api "Failed to parse messages response") ∧
    replyFormkeyStep (String.data "<form></form>") =
      .error (.api "Could not extract formkey from reply compose form") := by
  constructor
  · rfl
  · decide

/-- Claim C3 (amended): parsing failures inside the embedded-data
extractor degrade to an empty schedule (missing marker or unbalanced
brackets, and an undecodable extracted array, yield an empty
`DaySchedule` rather than an error), but `get_messages` raises
`WilmaAPIError` on an unparsable payload and `reply_to_message` raises
`WilmaAPIError` when the compose form lacks a formkey. -/
theorem c3_extractor_degrades_listing_and_reply_raise :
    (∀ html target loads, extractEventsArray html = none →
        parseScheduleFromHtml html target loads = .ok { date := target, lessons := [] }) ∧
    (∀ html target loads s, extractEventsArray html = some s → loads s = none →
        parseScheduleFromHtml html target loads = .ok { date := target, lessons := [] }) ∧
    (∀ folder limit now, getMessagesModel none folder limit now =
        .error (.api "Failed to parse messages response")) ∧
    (∀ html, extractFormkey html = none →
        replyFormkeyStep html =
          .error (.api "Could not extract formkey from reply compose form")) := by
  refine ⟨?_, ?_, ?_, ?_⟩
  · intro html target loads hx
    have hc : collectLessons (extractEventsArray html) target loads = .ok [] := by
      rw [hx]
      rfl
    unfold parseScheduleFromHtml
    rw [hc]
    rfl
  · intro html target loads s hx hld
    have hc : collectLessons (extractEventsArray html) target loads = .ok [] := by
      rw [hx]
      simp [collectLessons, hld]
    unfold parseScheduleFromHtml
    rw [hc]
    rfl
  · intro folder limit now
    rfl
  · intro html hx
    unfold replyFormkeyStep
    rw [hx]

/-- Witness for the amended claim C3: a page without the events marker
parses to an empty schedule. -/
theorem c3_extractor_degrades_witness :
    parseScheduleFromHtml (String.data "no marker here") "08.02.2026" (fun _ => none) =
      .ok { date := "08.02.2026", lessons := [] } :=
  c3_extractor_degrades_listing_and_reply_raise.1
    (String.data "no marker here") "08.02.2026" (fun _ => none) (by decide)

/-- Claim C8: the markup timestamp parser is claimed never to raise, but
on input `"45.1."` (no fixed format matches; the component fallback
extracts day 45, month 1) the final `datetime(...)` construction raises
`ValueError` — the code crashes instead of returning a timestamp. -/
theorem c8_timestamp_parser_raises_on_day_overflow :
    parseFinnishTimestamp "45.1." ⟨2026, 2, 3, 4, 5, 6⟩ = .error () := by decide

/-- Counterexample to claim C7 as stated: parsing the very same message
payload at two different clock instants yields different domain objects,
because an unparsable `TimeStamp` falls back to `datetime.now()`. -/
theorem c7_clock_dependence_counterexample :
    parseMessagesJson
        (JValue.obj [("Messages", .arr [.obj [("TimeStamp", .str "garbage")]])])
        "inbox" 20 ⟨2026, 1, 1, 0, 0, 0⟩ ≠
      parseMessagesJson
        (JValue.obj [("Messages", .arr [.obj [("TimeStamp", .str "garbage")]])])
        "inbox" 20 ⟨2027, 1, 1, 0, 0, 0⟩ := by decide

theorem tryFormats_findSome (fmts : List (List FTok)) (s : List Char) (now : PyDateTime) :
    tryFormats fmts s now =
      (fmts.findSome? fun f => strptime f s).map
        (fun dt => if dt.year = 1900 then { dt with year := now.year } else dt) := by
  induction fmts with
  | nil => rfl
  | cons f rest ih =>
    rw [tryFormats, List.findSome?_cons]
    cases hs : strptime f s with
    | none => rw [ih]
    | some dt => rfl

/-- Claim C7 (amended): the parsing functions are deterministic given
the clock — parsing the same payload twice with the same `now` yields
identical objects; moreover, when the timestamp actually parses
(message items with a well-formed `TimeStamp`; markup timestamps whose
matching fixed format carries an explicit year) the result does not
depend on the clock at all.  Only the `datetime.now()` fallbacks make
two runs differ. -/
theorem c7_parse_deterministic_given_clock :
    (∀ data folder limit now,
        parseMessagesJson data folder limit now = parseMessagesJson data folder limit now) ∧
    (∀ msg folder now now',
        (match getJD msg "TimeStamp" (.str "") with
          | .str s => (strptime fmtISOMin s.data).isSome = true
          | _ => True) →
        parseItem msg folder now = parseItem msg folder now') ∧
    (∀ ts now now', ts.data ≠ [] →
        (match finnishFormats.findSome? (fun f => strptime f (pyStrip ts.data)) with
          | some dt => dt.year ≠ 1900
          | none => False) →
        parseFinnishTimestamp ts now = parseFinnishTimestamp ts now') := by
  refine ⟨fun _ _ _ _ => rfl, ?_, ?_⟩
  · intro msg folder now now' hts
    unfold parseItem
    cases hv : getJD msg "TimeStamp" (.str "") with
    | str s =>
      rw [hv] at hts
      have hts' : (strptime fmtISOMin s.data).isSome = true := hts
      cases hp : strptime fmtISOMin s.data with
      | none => rw [hp] at hts'; simp at hts'
      | some dt => simp [hp]
    | null => rfl
    | bool b => rfl
    | num n => rfl
    | arr xs => rfl
    | obj fs => rfl
  · intro ts now now' hne hcond
    unfold parseFinnishTimestamp
    rw [if_neg hne, if_neg hne]
    cases hf : finnishFormats.findSome? (fun f => strptime f (pyStrip ts.data)) with
    | none => rw [hf] at hcond; exact hcond.elim
    | some dt =>
      rw [hf] at hcond
      have hcond' : dt.year ≠ 1900 := hcond
      simp only [tryFormats_findSome, hf, Option.map_some']
      rw [if_neg hcond', if_neg hcond']

/-- Witness for the amended claim C7: a well-formed item parses to the
same summary under two different clocks. -/
theorem c7_parse_deterministic_witness :
    parseItem [("TimeStamp", JValue.str "2026-02-08 11:42")] "inbox" ⟨2026, 1, 1, 0, 0, 0⟩ =
      parseItem [("TimeStamp", JValue.str "2026-02-08 11:42")] "inbox" ⟨2027, 1, 1, 0, 0, 0⟩ :=
  c7_parse_deterministic_given_clock.2.1
    [("TimeStamp", JValue.str "2026-02-08 11:42")] "inbox"
    ⟨2026, 1, 1, 0, 0, 0⟩ ⟨2027, 1, 1, 0, 0, 0⟩
    (show (strptime fmtISOMin (String.data "2026-02-08 11:42")).isSome = true by decide)

/-- Claim C10: `get_messages` queries the same endpoint for every
folder argument, and each summary's folder label is the item's own
`Folder` value when present, the caller's folder argument serving only
as the default; when `Folder` is present the folder argument does not
influence the parsed item at all. -/
theorem c10_folder_is_only_default_label :
    (∀ f1 f2 : String, messagesListPath f1 = messagesListPath f2) ∧
    (∀ msg folder now s, parseItem msg folder now = .ok s →
        (∀ v, lookupJ msg "Folder" = some v → s.folder = v) ∧
        (lookupJ msg "Folder" = none → s.folder = JValue.str folder)) ∧
    (∀ msg f1 f2 now v, lookupJ msg "Folder" = some v →
        parseItem msg f1 now = parseItem msg f2 now) := by
  refine ⟨fun _ _ => rfl, ?_, ?_⟩
  · intro msg folder now s h
    unfold parseItem at h
    cases hv : getJD msg "TimeStamp" (.str "") with
    | str s0 =>
      rw [hv] at h
      injection h with h'
      subst h'
      constructor
      · intro v hfv
        simp [getJD, hfv]
      · intro hfn
        simp [getJD, hfn]
    | null => rw [hv] at h; cases h
    | bool b => rw [hv] at h; cases h
    | num n => rw [hv] at h; cases h
    | arr xs => rw [hv] at h; cases h
    | obj fs => rw [hv] at h; cases h
  · intro msg f1 f2 now v hv
    simp [parseItem, getJD, hv]

/-- Witness for claim C10 on a concrete item carrying its own folder. -/
theorem c10_folder_is_only_default_label_witness :
    parseItem [("Folder", JValue.str "archive")] "inbox" ⟨2026, 1, 1, 0, 0, 0⟩ =
      parseItem [("Folder", JValue.str "archive")] "sent" ⟨2026, 1, 1, 0, 0, 0⟩ :=
  c10_folder_is_only_default_label.2.2
    [("Folder", JValue.str "archive")] "inbox" "sent" ⟨2026, 1, 1, 0, 0, 0⟩
    (JValue.str "archive") (by decide)

/-- Match of `(/!\d+)` at the head of the input: `/`, `!`, then the
maximal non-empty digit run (the capture group). -/
def matchUserPref (l : List Char) : Option (List Char) :=
  match l with
  | c1 :: c2 :: rest =>
    if c1 = '/' then
      if c2 = '!' then
        if rest.takeWhile isDig = [] then none
        else some ('/' :: '!' :: rest.takeWhile isDig)
      else none
    else none
  | _ => none

/-- `re.search(r"(/!\d+)", s)` (client.py line 113). -/
def findUserPref (l : List Char) : Option (List Char) := searchFrom matchUserPref l

/-- Match of `href="(/!\d+)` at the head of the input. -/
def matchHrefPref (l : List Char) : Option (List Char) :=
  match litPrefix (String.data "href=\"") l with
  | none => none
  | some r => matchUserPref r

/-- `re.search(r'href="(/!\d+)', s)` (client.py line 118). -/
def findHrefPref (l : List Char) : Option (List Char) := searchFrom matchHrefPref l

/-- Specification-level shape of the user-prefix pattern at the head of
a character list: a slash, a bang, then at least one digit. -/
def HeadPat (l : List Char) : Prop :=
  l.get? 0 = some '/' ∧ l.get? 1 = some '!' ∧ ∃ c, l.get? 2 = some c ∧ isDig c = true

/-- Specification-level shape of the anchor fallback pattern:
`href="` immediately followed by the user-prefix pattern. -/
def HrefPat (l : List Char) : Prop :=
  (String.data "href=\"").isPrefixOf l = true ∧ HeadPat (l.drop 6)

theorem searchFrom_eq_none {α : Type} (f : List Char → Option α) (l : List Char) :
    searchFrom f l = none ↔ ∀ i, f (l.drop i) = none := by
  induction l with
  | nil =>
    constructor
    · intro h i
      simpa [List.drop_nil] using h
    · intro h
      simpa [searchFrom] using h 0
  | cons c rest ih =>
    rw [searchFrom]
    cases hf : f (c :: rest) with
    | some r =>
      constructor
      · intro h
        cases h
      · intro h
        have := h 0
        rw [List.drop_zero] at this
        rw [hf] at this
        cases this
    | none =>
      rw [ih]
      constructor
      · intro h i
        cases i with
        | zero => simpa using hf
        | succ j => exact h j
      · intro h i
        exact h (i + 1)

theorem matchUserPref_none (l : List Char) :
    matchUserPref l = none ↔ ¬HeadPat l := by
  cases l with
  | nil => simp [matchUserPref, HeadPat]
  | cons c1 tl =>
    cases tl with
    | nil => simp [matchUserPref, HeadPat]
    | cons c2 rest =>
      by_cases h1 : c1 = '/'
      · by_cases h2 : c2 = '!'
        · subst h1
          subst h2
          cases rest with
          | nil => simp [matchUserPref, HeadPat]
          | cons c3 r3 =>
            by_cases h3 : isDig c3 = true
            · simp [matchUserPref, HeadPat, List.takeWhile_cons_of_pos h3, h3]
            · simp [matchUserPref, HeadPat,
                    List.takeWhile_cons_of_neg (by simpa using h3), h3]
        · simp [matchUserPref, HeadPat, h2]
      · simp [matchUserPref, HeadPat, h1]

theorem matchHrefPref_none (l : List Char) :
    matchHrefPref l = none ↔ ¬HrefPat l := by
  unfold matchHrefPref litPrefix
  by_cases hp : (String.data "href=\"").isPrefixOf l = true
  · rw [if_pos hp]
    rw [matchUserPref_none]
    have hlen : (String.data "href=\"").length = 6 := rfl
    rw [hlen]
    unfold HrefPat
    constructor
    · intro h hh
      exact h hh.2
    · intro h hh
      exact h ⟨hp, hh⟩
  · rw [if_neg hp]
    unfold HrefPat
    constructor
    · intro _ hh
      exact hp hh.1
    · intro _
      rfl

theorem findUserPref_none (l : List Char) :
    findUserPref l = none ↔ ∀ i, ¬HeadPat (l.drop i) := by
  unfold findUserPref
  rw [searchFrom_eq_none]
  constructor
  · intro h i
    exact (matchUserPref_none _).mp (h i)
  · intro h i
    exact (matchUserPref_none _).mpr (h i)

theorem findHrefPref_none (l : List Char) :
    findHrefPref l = none ↔ ∀ i, ¬HrefPat (l.drop i) := by
  unfold findHrefPref
  rw [searchFrom_eq_none]
  constructor
  · intro h i
    exact (matchHrefPref_none _).mp (h i)
  · intro h i
    exact (matchHrefPref_none _).mpr (h i)

/-- The post-POST part of `login()` (client.py lines 106-122): success
is decided solely by the `Wilma2SID` cookie (a missing or empty cookie
is falsy and raises `WilmaAuthError`, whatever the HTTP status was);
the user prefix is searched in the final redirected URL, then in an
anchor `href` of the body, and `WilmaAuthError` is raised when neither
matches.  The HTTP status is never consulted. -/
def loginOutcome (sidCookie : Option String) (finalUrl bodyText : String)
    (_status : Nat) : Except WErr (String × String) :=
  match sidCookie with
  | none => .error (.auth "Login failed - no session cookie received")
  | some sid =>
    if sid.data = [] then .error (.auth "Login failed - no session cookie received")
    else
      match findUserPref finalUrl.data with
      | some p => .ok (sid, String.mk p)
      | none =>
        match findHrefPref bodyText.data with
        | some p => .ok (sid, String.mk p)
        | none => .error (.auth "Could not determine user prefix after login")

/-- Claim C6: login success is determined solely by the session cookie
(absent or empty cookie raises `WilmaAuthError` regardless of HTTP
status, which is never consulted), and the per-user prefix — slash,
`!`, digits — is taken first from the final redirected URL, then from
an anchor `href` in the body, with `WilmaAuthError` when neither
contains the pattern. -/
theorem c6_login_cookie_and_prefix_rules :
    (∀ url body st, loginOutcome none url body st =
        .error (.auth "Login failed - no session cookie received")) ∧
    (∀ url body st, loginOutcome (some "") url body st =
        .error (.auth "Login failed - no session cookie received")) ∧
    (∀ sid url body st st', loginOutcome sid url body st = loginOutcome sid url body st') ∧
    (∀ sid url body st, sid.data ≠ [] →
        (∀ i, ¬HeadPat (url.data.drop i)) → (∀ i, ¬HrefPat (body.data.drop i)) →
        loginOutcome (some sid) url body st =
          .error (.auth "Could not determine user prefix after login")) ∧
    (∀ sid url body st p, sid.data ≠ [] → findUserPref url.data = some p →
        loginOutcome (some sid) url body st = .ok (sid, String.mk p)) ∧
    (∀ sid url body st p, sid.data ≠ [] → findUserPref url.data = none →
        findHrefPref body.data = some p →
        loginOutcome (some sid) url body st = .ok (sid, String.mk p)) := by
  have hsome : ∀ (sid url body : String) (st : Nat),
      loginOutcome (some sid) url body st =
        if sid.data = [] then
          Except.error (WErr.auth "Login failed - no session cookie received")
        else
          match findUserPref url.data with
          | some p => Except.ok (sid, String.mk p)
          | none =>
            match findHrefPref body.data with
            | some p => Except.ok (sid, String.mk p)
            | none => Except.error (WErr.auth "Could not determine user prefix after login") :=
    fun _ _ _ _ => rfl
  refine ⟨fun _ _ _ => rfl, fun _ _ _ => rfl, fun _ _ _ _ _ => rfl, ?_, ?_, ?_⟩
  · intro sid url body st hsid hurl hbody
    rw [hsome, if_neg hsid, (findUserPref_none url.data).mpr hurl,
      (findHrefPref_none body.data).mpr hbody]
  · intro sid url body st p hsid hurl
    rw [hsome, if_neg hsid, hurl]
  · intro sid url body st p hsid hurl hbody
    rw [hsome, if_neg hsid, hurl, hbody]

/-- Witness for claim C6 on the specification's scenario: cookie
present, redirect URL `https://x/!0411876/?a=1` → prefix `/!0411876`. -/
theorem c6_login_cookie_and_prefix_rules_witness :
    loginOutcome (some "xyz") "https://x/!0411876/?a=1" "" 200 =
      .ok ("xyz", "/!0411876") :=
  (c6_login_cookie_and_prefix_rules.2.2.2.2.1 "xyz" "https://x/!0411876/?a=1" "" 200
      (String.data "/!0411876") (by decide) (by decide)).trans (by decide)

/-- The session fields held by the client (`_session_id`,
`_user_prefix`). -/
structure ClientState where
  sessionId : Option String
  userPref : Option String
deriving DecidableEq

/-- An HTTP response, reduced to the two fields the client inspects. -/
structure HResponse where
  url : String
  text : String
deriving DecidableEq

/-- Observable outcome of one `_request` call: the returned value or
error, the final session state, the request paths actually issued, and
the session state at the moment of each `login()` invocation. -/
structure DispatchResult where
  outcome : Except WErr HResponse
  finalState : ClientState
  sentPaths : List String
  loginStates : List ClientState
deriving DecidableEq

/-- The `_ensure_authenticated` test (client.py line 126). -/
def needsLogin (st : ClientState) : Bool :=
  st.sessionId.isNone || st.userPref.isNone

/-- Path rewriting of `_request` (client.py lines 152-153): the user
prefix is prepended unless the path starts with `/!` or `/preferences`
(a `None` prefix would be interpolated by the f-string as the text
`None`). -/
def rewritePath (st : ClientState) (path : String) : String :=
  if ['/', '!'].isPrefixOf path.data
      || (String.data "/preferences").isPrefixOf path.data then
    path
  else
    (match st.userPref with
      | some p => p
      | none => "None") ++ path

/-- The expiry test of client.py line 159: the lower-cased response URL
contains `/login`. -/
def urlExpired (url : String) : Bool :=
  containsSub (lowerL url.data) (String.data "/login")

/-- `_request` (client.py lines 129-168), with the transport abstracted:
`t1` and `t2` are the outcomes of the first and (when reached) second
`client.request` call (`error` = `httpx.HTTPError`), and `login()` is
abstracted as succeeding with resulting state `loginResult`.  The
second response is returned as-is: the expiry test runs only once. -/
def dispatchModel (st0 loginResult : ClientState)
    (t1 t2 : Except String HResponse) (path : String) : DispatchResult :=
  let auth := if needsLogin st0 then (loginResult, [st0]) else (st0, ([] : List ClientState))
  let p := rewritePath auth.1 path
  match t1 with
  | .error e =>
    { outcome := .error (.api ("Request to " ++ p ++ " failed: " ++ e)),
      finalState := auth.1, sentPaths := [p], loginStates := auth.2 }
  | .ok r1 =>
    if urlExpired r1.url then
      match t2 with
      | .error e =>
        { outcome := .error (.api ("Request to " ++ p ++ " failed: " ++ e)),
          finalState := loginResult, sentPaths := [p, p],
          loginStates := auth.2 ++ [{ auth.1 with sessionId := none }] }
      | .ok r2 =>
        { outcome := .ok r2, finalState := loginResult, sentPaths := [p, p],
          loginStates := auth.2 ++ [{ auth.1 with sessionId := none }] }
    else
      { outcome := .ok r1, finalState := auth.1, sentPaths := [p],
        loginStates := auth.2 }

/-- Counterexample to claim C2 as stated: when the retried request's
response again redirects to the login page, the dispatcher returns that
response normally — no `WilmaAPIError` is raised for the second
expiry. -/
theorem c2_second_expiry_counterexample :
    (dispatchModel ⟨some "sid", some "/!1"⟩ ⟨some "sid2", some "/!1"⟩
        (.ok ⟨"https://x/login", ""⟩) (.ok ⟨"https://x/login", ""⟩) "/schedule").outcome
      = .ok ⟨"https://x/login", ""⟩ ∧
    urlExpired "https://x/login" = true := by
  constructor
  · rfl
  · decide

/-- Claim C2 (amended): on an authenticated request whose response URL
indicates expiry, the dispatcher clears the held session id, calls
`login()` exactly once, and retries the original (already prefixed)
path exactly once; the retried response is then returned to the caller
as-is — even when it again indicates expiry, no `WilmaAPIError` is
raised and no further retry happens. -/
theorem c2_expiry_clears_logs_in_and_retries_once
    (st loginResult : ClientState) (r1 r2 : HResponse) (path : String)
    (hauth : needsLogin st = false) (hexp : urlExpired r1.url = true) :
    dispatchModel st loginResult (.ok r1) (.ok r2) path =
      { outcome := .ok r2, finalState := loginResult,
        sentPaths := [rewritePath st path, rewritePath st path],
        loginStates := [{ st with sessionId := none }] } := by
  unfold dispatchModel
  rw [hauth]
  simp only [Bool.false_eq_true, if_false, hexp, if_true]
  rfl

/-- Witness for the amended claim C2: a concrete double-expiry run. -/
theorem c2_expiry_clears_logs_in_and_retries_once_witness :
    dispatchModel ⟨some "sid", some "/!1"⟩ ⟨some "sid2", some "/!1"⟩
        (.ok ⟨"https://x/login", ""⟩) (.ok ⟨"https://x/login", ""⟩) "/schedule" =
      { outcome := .ok ⟨"https://x/login", ""⟩,
        finalState := ⟨some "sid2", some "/!1"⟩,
        sentPaths := ["/!1/schedule", "/!1/schedule"],
        loginStates := [⟨none, some "/!1"⟩] } :=
  (c2_expiry_clears_logs_in_and_retries_once ⟨some "sid", some "/!1"⟩
      ⟨some "sid2", some "/!1"⟩ ⟨"https://x/login", ""⟩ ⟨"https://x/login", ""⟩
      "/schedule" (by decide) (by decide)).trans (by decide)

/-- Success judgment of `send_message` (client.py lines 687-695). -/
def sendOutcome (finalUrl bodyText : String) : Except WErr Bool :=
  if containsSub (lowerL finalUrl.data) (String.data "messages") then .ok true
  else if containsSub (lowerL bodyText.data) (String.data "error")
      || containsSub (lowerL bodyText.data) (String.data "virhe") then
    .error (.api "Failed to send message - server returned an error")
  else .ok true

/-- Success judgment of `reply_to_message` (client.py lines 779-787). -/
def replyOutcome (finalUrl bodyText : String) : Except WErr Bool :=
  if containsSub (lowerL finalUrl.data) (String.data "messages") then .ok true
  else if containsSub (lowerL bodyText.data) (String.data "error")
      || containsSub (lowerL bodyText.data) (String.data "virhe") then
    .error (.api "Failed to send reply - server returned an error")
  else .ok true

/-- Claim C9: for every response, the success judgment of
`send_message` and `reply_to_message` either returns `True` or raises
`WilmaAPIError` — `False` is never returned, even when the final URL
lacks the message-list path and no error keyword is found. -/
theorem c9_send_reply_never_return_false :
    (∀ url body, sendOutcome url body = .ok true ∨
        sendOutcome url body =
          .error (.api "Failed to send message - server returned an error")) ∧
    (∀ url body, replyOutcome url body = .ok true ∨
        replyOutcome url body =
          .error (.api "Failed to send reply - server returned an error")) := by
  constructor
  · intro url body
    unfold sendOutcome
    split_ifs with h1 h2
    · exact .inl rfl
    · exact .inr rfl
    · exact .inl rfl
  · intro url body
    unfold replyOutcome
    split_ifs with h1 h2
    · exact .inl rfl
    · exact .inr rfl
    · exact .inl rfl

end Wilma
